import Mathlib

set_option maxRecDepth 40000

/-!
Verification of the web3-helpers repository (`common/node.py`,
`common/etherscan.py`) against its natural-language specification.

The embedding models the external world (RPC nodes, the block explorer,
transaction data) as oracles in a `World` structure, the on-disk ABI cache
as an association list `Store`, and records every observable interaction in
an explicit trace of `Ev` events.  Address checksumming is embedded for
real: a complete executable Keccak-256 permutation plus the EIP-55
mixed-case encoding, matching `Web3.toChecksumAddress`.
-/

/-! ### Keccak-256 (as used by `Web3.toChecksumAddress`)

The 5x5x64-bit Keccak state is a list of 25 lanes, lane `(x, y)` stored at
index `x + 5*y`. -/

/-- 64-bit left rotation on values below `2^64`. -/
def rotl64 (x n : Nat) : Nat :=
  ((x <<< (n % 64)) ||| (x >>> (64 - n % 64))) &&& (2 ^ 64 - 1)

/-- Lane `i` of a Keccak state. -/
def getLane (s : List Nat) (i : Nat) : Nat :=
  s.getD i 0

/-- Keccak theta step. -/
def theta (s : List Nat) : List Nat :=
  let c := (List.range 5).map (fun x =>
    getLane s x ^^^ getLane s (x + 5) ^^^ getLane s (x + 10) ^^^
      getLane s (x + 15) ^^^ getLane s (x + 20))
  let d := (List.range 5).map (fun x =>
    (c.getD ((x + 4) % 5) 0) ^^^ rotl64 (c.getD ((x + 1) % 5) 0) 1)
  (List.range 25).map (fun i => getLane s i ^^^ d.getD (i % 5) 0)

/-- Keccak rho rotation offsets arranged by pi destination: entry `j` is
the rotation applied to the source lane that pi moves to position `j`. -/
def rhoPiOffsets : List Nat :=
  [0, 44, 43, 21, 14,
   28, 20, 3, 45, 61,
   1, 6, 25, 8, 18,
   27, 36, 10, 15, 56,
   62, 55, 39, 41, 2]

/-- Keccak rho and pi steps combined: the lane at position `(x', y')` of the
output is the rotated lane `((x' + 3*y') mod 5, x')` of the input. -/
def rhoPi (s : List Nat) : List Nat :=
  (List.range 25).map (fun j =>
    let src := (j % 5 + 3 * (j / 5)) % 5 + 5 * (j % 5)
    rotl64 (getLane s src) (rhoPiOffsets.getD j 0))

/-- Keccak chi step. -/
def chi (s : List Nat) : List Nat :=
  (List.range 25).map (fun i =>
    let x := i % 5
    let row := 5 * (i / 5)
    getLane s i ^^^
      (((getLane s ((x + 1) % 5 + row)) ^^^ (2 ^ 64 - 1)) &&& getLane s ((x + 2) % 5 + row)))

/-- Keccak round constants. -/
def keccakRC : List Nat :=
  [0x0000000000000001, 0x0000000000008082, 0x800000000000808a, 0x8000000080008000,
   0x000000000000808b, 0x0000000080000001, 0x8000000080008081, 0x8000000000008009,
   0x000000000000008a, 0x0000000000000088, 0x0000000080008009, 0x000000008000000a,
   0x000000008000808b, 0x800000000000008b, 0x8000000000008089, 0x8000000000008003,
   0x8000000000008002, 0x8000000000000080, 0x000000000000800a, 0x800000008000000a,
   0x8000000080008081, 0x8000000000008080, 0x0000000080000001, 0x8000000080008008]

/-- One Keccak-f[1600] round (iota is the final xor of the round constant
into lane 0). -/
def keccakRound (s : List Nat) (rc : Nat) : List Nat :=
  match chi (rhoPi (theta s)) with
  | [] => []
  | a :: rest => (a ^^^ rc) :: rest

/-- The full Keccak-f[1600] permutation (24 rounds). -/
def keccakF (s : List Nat) : List Nat :=
  keccakRC.foldl keccakRound s

/-- Combine 8 bytes (little-endian) into one 64-bit lane. -/
def bytesToLane (bs : List Nat) : Nat :=
  bs.foldr (fun b acc => b + 256 * acc) 0

/-- Split a 136-byte rate block into 17 lanes. -/
def blockLanes (block : List Nat) : List Nat :=
  (List.range 17).map (fun i => bytesToLane ((block.drop (8 * i)).take 8))

/-- Absorb one 136-byte block into the state and permute. -/
def absorbBlock (s : List Nat) (block : List Nat) : List Nat :=
  keccakF ((List.range 25).map (fun i => getLane s i ^^^ ((blockLanes block).getD i 0)))

/-- Original Keccak multi-rate padding (`0x01 ... 0x80`), rate 136 bytes. -/
def keccakPad (msg : List Nat) : List Nat :=
  let padlen := 136 - (msg.length % 136)
  if padlen = 1 then msg ++ [0x81]
  else msg ++ [0x01] ++ List.replicate (padlen - 2) 0 ++ [0x80]

/-- Keccak-256 of a byte sequence (the pre-SHA3 variant used by Ethereum);
the 32 output bytes are the first four lanes, least-significant byte
first. -/
def keccak256 (msg : List Nat) : List Nat :=
  let padded := keccakPad msg
  let nblocks := padded.length / 136
  let final := (List.range nblocks).foldl
    (fun s i => absorbBlock s ((padded.drop (136 * i)).take 136))
    (List.replicate 25 0)
  (List.range 32).map (fun i => ((getLane final (i / 8)) >>> (8 * (i % 8))) % 256)

/-! ### EIP-55 checksummed addresses (`checksum_address`) -/

/-- ASCII lowercasing of a string, as Python's `str.lower()` acts on the
hexadecimal address strings this code handles. -/
def strLower (s : String) : String :=
  String.mk (s.toList.map Char.toLower)

/-- The sixteen lowercase hexadecimal digit characters (order is
irrelevant: the list is only a membership test). -/
def lowerHexChars : List Char :=
  ['0', 'a', '1', 'b', '2', 'c', '3', 'd',
   '4', 'e', '5', 'f', '6', '7', '8', '9']

/-- Whether a character is a lowercase hexadecimal digit. -/
def isLowerHexDigit (c : Char) : Bool :=
  lowerHexChars.contains c

/-- Parse an address string: lowercase it, require a `0x` prefixed run of
exactly 40 hex digits (the validation performed by `toChecksumAddress`),
and return the 40 digit characters. -/
def parseAddress (s : String) : Option (List Char) :=
  match (strLower s).toList with
  | c0 :: c1 :: rest =>
      if c0 = '0' ∧ c1 = 'x' ∧ rest.length = 40 ∧ rest.all isLowerHexDigit = true then
        some rest
      else none
  | _ => none

/-- The nibble sequence (high nibble first) of a byte sequence. -/
def nibbles (bs : List Nat) : List Nat :=
  bs.flatMap (fun b => [b / 16, b % 16])

/-- EIP-55 casing: uppercase the i-th hex digit exactly when the i-th nibble
of the Keccak-256 hash of the lowercase hex string is at least 8. -/
def checksumChars (digits : List Char) : List Char :=
  let h := keccak256 (digits.map Char.toNat)
  let ns := (nibbles h).take 40
  (digits.zip ns).map (fun p => if 8 ≤ p.2 then p.1.toUpper else p.1)

/-- `Web3.toChecksumAddress`: validate and normalize, then apply EIP-55
casing; `none` models the exception raised on an invalid address. -/
def to_checksum_address (s : String) : Option String :=
  (parseAddress s).map (fun digits => String.mk ('0' :: 'x' :: checksumChars digits))

/-- The chain identifiers with configured endpoints (`CHAIN_ENDPOINTS`);
`web3_client` raises a `KeyError` for any other chain. -/
def chain_ok (chain : String) : Bool :=
  chain = "eth" || chain = "polygon"

/-- `checksum_address(address, chain)`: builds a client for `chain` (failing
for unknown chains) and checksums the address; the result itself does not
depend on the chain. -/
def checksum_address (address : String) (chain : String) : Option String :=
  if chain_ok chain then to_checksum_address address else none

/-! ### The external world, the ABI cache and the event trace -/

/-- A transaction as returned by `eth.get_transaction`: its `to` field is
absent (`None`) for contract-creation transactions; `input` is the raw
call-data. -/
structure Transaction where
  to_addr : Option String
  input : String
deriving DecidableEq, Repr

/-- A value in the argument-filter dictionary. -/
inductive FVal
  | str (s : String)
  | int (n : Int)
deriving DecidableEq, Repr

/-- Everything outside the program: RPC node answers and block-explorer
answers, per chain.  `none` models a raised exception / missing data. -/
structure World where
  explorer_abi : String → String → Option String
  json_ok : String → Bool
  balanceOf : String → String → String → Int
  balanceOfBatch : String → String → List String → List Nat → Option (List Int)
  latest_block : String → Int
  txs : String → String → Option Transaction
  decode_input : String → String → Option (String × List (String × String))
  find_event_abi : String → String → Option String
  get_logs_result : String → Int → Option Int → String → List (String × FVal) → List String
  get_event_data : String → String → Option String

/-- The on-disk ABI cache: an association list from file path to file
content. -/
abbrev Store := List (String × String)

/-- Observable actions, in program order: network calls, the local contract
binding, and printed diagnostics. -/
inductive Ev
  | explorerFetch (chain address : String)
  | contractBind (chain address : String)
  | rpcBalanceOf (chain contract wallet : String)
  | rpcBalanceOfBatch (chain contract : String) (owners : List String) (ids : List Nat)
  | rpcGetTransaction (chain tx : String)
  | rpcLatestBlock (chain : String)
  | rpcGetLogs (chain : String) (fromBlock : Int) (toBlock : Option Int)
      (filterAddress : String) (argument_filters : List (String × FVal))
  | diag (msg : String)
deriving DecidableEq, Repr

/-- Whether an event is a network call (the contract binding and prints are
purely local). -/
def Ev.isNetworkCall : Ev → Bool
  | .explorerFetch _ _ => true
  | .contractBind _ _ => false
  | .rpcBalanceOf _ _ _ => true
  | .rpcBalanceOfBatch _ _ _ _ => true
  | .rpcGetTransaction _ _ => true
  | .rpcLatestBlock _ => true
  | .rpcGetLogs _ _ _ _ _ => true
  | .diag _ => false

/-! ### ABI Store (`fetch_contract_abi` / `store_contract_abi`) -/

/-- `CONTRACTS_STORAGE_PATH`: the cache directory. -/
def CONTRACTS_STORAGE_PATH : String := "data/contracts"

/-- The cache file path for a contract address. -/
def abi_path (contract_address : String) : String :=
  CONTRACTS_STORAGE_PATH ++ "/" ++ contract_address ++ ".abi"

/-- `fetch_contract_abi`: read the cached ABI text if the file exists. -/
def fetch_contract_abi (store : Store) (contract_address : String) : Option String :=
  store.lookup (abi_path contract_address)

/-- `store_contract_abi`: create the cache file only if it does not already
exist (`open(path, "x")` guarded by `os.path.isfile`). -/
def store_contract_abi (store : Store) (contract_address contract_abi : String) : Store :=
  if (store.lookup (abi_path contract_address)).isSome then store
  else (abi_path contract_address, contract_abi) :: store

/-! ### Contract Binding (`get_contract`) -/

/-- A bound contract handle: checksummed address, raw ABI text, and the
chain/provider of the client it was built with. -/
structure Contract where
  address : String
  abi : String
  chain : String
  provider : String
deriving DecidableEq, Repr

/-- The first-time path of `get_contract` (reached when the cached ABI is
falsy, i.e. missing or empty): fetch the ABI from the block explorer,
store it write-if-absent, and bind the contract. -/
def get_contract_fetch (w : World) (store : Store) (addr chain provider : String) :
    Option (Contract × Store × List Ev) :=
  match w.explorer_abi chain addr with
  | none => none
  | some abi =>
      if w.json_ok abi then
        some ({ address := addr, abi := abi, chain := chain, provider := provider },
              store_contract_abi store addr abi,
              [.diag ("fetching contract " ++ addr ++ " for the first time"),
               .explorerFetch chain addr, .contractBind chain addr])
      else none

/-- `get_contract`: checksum the address, look the ABI up in the cache, on
a miss (Python falsiness: a missing or an empty cached text) fetch it from
the explorer and store it, then bind the contract.  Returns the handle,
the updated cache, and the trace; `none` models an exception (invalid
address, failed fetch, unparsable ABI). -/
def get_contract (w : World) (store : Store) (contract_address chain provider : String) :
    Option (Contract × Store × List Ev) :=
  match checksum_address contract_address chain with
  | none => none
  | some addr =>
    match fetch_contract_abi store addr with
    | some abi =>
        if abi ≠ "" then
          if w.json_ok abi then
            some ({ address := addr, abi := abi, chain := chain, provider := provider },
                  store, [.contractBind chain addr])
          else none
        else get_contract_fetch w store addr chain provider
    | none => get_contract_fetch w store addr chain provider

/-! ### Transaction Decoder (`decode_contract_transaction`) -/

/-- `decode_contract_transaction`: fetch the transaction on the requested
chain, read its target address, resolve the contract — with `get_contract`'s
default chain, not the requested one — and decode the call-data. -/
def decode_contract_transaction (w : World) (store : Store)
    (transaction_address : String) (chain : String) :
    Option ((String × List (String × String)) × Store × List Ev) :=
  match w.txs chain transaction_address with
  | none => none
  | some tx =>
    match tx.to_addr with
    | none => none
    | some target =>
      match get_contract w store target "eth" "http" with
      | none => none
      | some (ct, store2, ev1) =>
        match w.decode_input ct.abi tx.input with
        | none => none
        | some r =>
            some (r, store2,
              [Ev.rpcGetTransaction chain transaction_address,
               Ev.diag ("decoding transaction. hash: " ++ transaction_address ++
                        " | contract: " ++ target)] ++ ev1)

/-! ### Event Query Engine (`get_events`) -/

/-- The argument-filter dictionary of `get_events`, in insertion order:
always the address; the token id only when truthy (so neither `None` nor
`0` adds it); then each truthy positional topic. -/
def build_argument_filters (contract_address : String) (token_id : Option Int)
    (topics : Option (List (Option String))) : List (String × FVal) :=
  let base := [("address", FVal.str contract_address)]
  let base :=
    match token_id with
    | some t => if t ≠ 0 then base ++ [("tokenId", FVal.int t)] else base
    | none => base
  match topics with
  | some ts =>
      if ts ≠ [] then
        base ++ (ts.enum.filterMap (fun p =>
          match p.2 with
          | some s => if s ≠ "" then some ("topic" ++ toString p.1, FVal.str s) else none
          | none => none))
      else base
  | none => base

/-- The block-range translation of `get_events`: a negative start block is
resolved against the current chain head (`head + start`, i.e. the last `-start`
blocks); a non-negative start is used as given.  Also yields the
`eth_blockNumber` call this requires. -/
def resolve_start_block (w : World) (chain : String) (start_block : Int) :
    Int × List Ev :=
  if start_block < 0 then
    (w.latest_block chain + start_block, [Ev.rpcLatestBlock chain])
  else (start_block, ([] : List Ev))

/-- `get_events`: resolve the contract (on the default chain), match the
event ABI, build the filters, resolve a negative start block against the
chain head, run `eth_getLogs` on the requested chain, and decode every
returned log.  The result carries the decoded events, the updated cache and
the trace; the log filter's block range, address and argument filters are
passed to the `eth_getLogs` oracle and recorded in the `rpcGetLogs` trace
event (`toBlock = none` encodes `"latest"`). -/
def get_events (w : World) (store : Store) (contract_address : String)
    (event_name : String) (token_id : Option Int) (start_block : Int)
    (end_block : Option Int) (chain : String)
    (topics : Option (List (Option String))) :
    Option (List String × Store × List Ev) :=
  match checksum_address contract_address "eth" with
  | none => none
  | some ca =>
    match get_contract w store ca "eth" "http" with
    | none => none
    | some (ct, store2, ev1) =>
      match w.find_event_abi ct.abi event_name with
      | none => none
      | some eabi =>
        match (w.get_logs_result chain (resolve_start_block w chain start_block).1 end_block
                 (match (build_argument_filters ca token_id topics).lookup "address" with
                  | some (FVal.str s) => s
                  | _ => "")
                 (build_argument_filters ca token_id topics)).mapM (w.get_event_data eabi) with
        | none => none
        | some events =>
            some (events, store2,
              ev1 ++ (resolve_start_block w chain start_block).2 ++
                [Ev.rpcGetLogs chain (resolve_start_block w chain start_block).1 end_block
                   (match (build_argument_filters ca token_id topics).lookup "address" with
                    | some (FVal.str s) => s
                    | _ => "")
                   (build_argument_filters ca token_id topics)])

/-! ### Holdings Aggregator (`get_nft_holdings` / `get_curated_nfts_holdings`) -/

/-- An entry of the curated contract list (`curated.json`): metadata with
optional `symbol`, `name`, `fetch_batch` tag and `total_supply`. -/
structure Metadata where
  symbol : Option String
  name : Option String
  fetch_batch : Option Bool
  total_supply : Option Nat
deriving DecidableEq, Repr

/-- A holding in the aggregator's output: the metadata passthrough merged
with the computed balance, symbol, name and checksummed address. -/
structure Holding where
  md : Metadata
  balance : Int
  symbol : Option String
  name : Option String
  address : String
deriving DecidableEq, Repr

/-- `get_nft_holdings`: checksum both addresses, bind the contract, require
metadata, call `balanceOf`, and produce a holding only for a positive
balance (`balance <= 0` returns `None`). -/
def get_nft_holdings (w : World) (store : Store)
    (wallet_address contract_address : String) (contract_metadata : Option Metadata) :
    Option (Option Holding × Store × List Ev) :=
  match checksum_address wallet_address "eth" with
  | none => none
  | some wa =>
    match checksum_address contract_address "eth" with
    | none => none
    | some ca =>
      match get_contract w store ca "eth" "http" with
      | none => none
      | some (ct, store2, ev1) =>
        match contract_metadata with
        | none => none
        | some md =>
          if w.balanceOf ct.chain ct.address wa ≤ 0 then
            some (none, store2, ev1 ++ [Ev.rpcBalanceOf ct.chain ct.address wa])
          else
            some (some { md := md, balance := w.balanceOf ct.chain ct.address wa,
                         symbol := md.symbol, name := md.name, address := ca }, store2,
                  ev1 ++ [Ev.rpcBalanceOf ct.chain ct.address wa])

/-- The diagnostic printed when a batched balance lookup fails. -/
def batchDiag (contract_address : String) : String :=
  "problems fetching contract balance: " ++ contract_address ++ ". moving along..."

/-- The `try`-guarded batched balance lookup: replicate the wallet once per
id over the synthetic range `[0, total_supply)`, call `balanceOfBatch`, and
count the positions whose balance is exactly 1 (`.count(1)`).  Any failure
(missing `total_supply` — `[w] * None` raises — or a failing call) degrades
to balance 0 plus the printed diagnostic. -/
def batch_balance (w : World) (ct : Contract) (wallet ca : String) (md : Metadata) :
    Int × List Ev :=
  match md.total_supply with
  | none => ((0 : Int), [Ev.diag (batchDiag ca)])
  | some n =>
    match w.balanceOfBatch ct.chain ct.address (List.replicate n wallet) (List.range n) with
    | none => ((0 : Int),
        [Ev.rpcBalanceOfBatch ct.chain ct.address (List.replicate n wallet) (List.range n),
         Ev.diag (batchDiag ca)])
    | some bals => (Int.ofNat (bals.count 1),
        [Ev.rpcBalanceOfBatch ct.chain ct.address (List.replicate n wallet) (List.range n)])

/-- The body of the curated-holdings loop for one `(address, metadata)`
entry: checksum and bind the contract, then apply the batch or single
balance strategy; returns the optional holding this contract contributes,
the updated cache, and the trace.  `none` models an uncaught exception —
note only the batched balance lookup is wrapped in `try`. -/
def process_curated (w : World) (store : Store) (wallet : String)
    (include_batch : Bool) (contract_address : String) (md : Metadata) :
    Option (Option Holding × Store × List Ev) :=
  match checksum_address contract_address "eth" with
  | none => none
  | some ca =>
    match get_contract w store ca "eth" "http" with
    | none => none
    | some (ct, store2, ev1) =>
      if md.fetch_batch = some true then
        if include_batch = false then
          some (none, store2, ev1)
        else
          some ((if (batch_balance w ct wallet ca md).1 > 0 then
                   some { md := md, balance := (batch_balance w ct wallet ca md).1,
                          symbol := md.symbol, name := md.name, address := ca }
                 else none), store2, ev1 ++ (batch_balance w ct wallet ca md).2)
      else
        some ((if w.balanceOf ct.chain ct.address wallet > 0 then
                 some { md := md, balance := w.balanceOf ct.chain ct.address wallet,
                        symbol := md.symbol, name := md.name, address := ca }
               else none), store2,
              ev1 ++ [Ev.rpcBalanceOf ct.chain ct.address wallet])

/-- The curated-holdings loop over the (insertion-ordered) curated list. -/
def curated_loop (w : World) (wallet : String) (include_batch : Bool) :
    Store → List (String × Metadata) → Option (List Holding × Store × List Ev)
  | store, [] => some ([], store, [])
  | store, (ca, md) :: rest =>
    match process_curated w store wallet include_batch ca md with
    | none => none
    | some (hOpt, store2, ev) =>
      match curated_loop w wallet include_batch store2 rest with
      | none => none
      | some (hs, st, tr) => some (hOpt.toList ++ hs, st, ev ++ tr)

/-- `get_curated_nfts_holdings`: checksum the wallet then fold the per-
contract strategy over the curated list, keeping only positive balances in
input order. -/
def get_curated_nfts_holdings (w : World) (store : Store)
    (curated : List (String × Metadata)) (wallet_address : String)
    (include_batch : Bool) : Option (List Holding × Store × List Ev) :=
  match checksum_address wallet_address "eth" with
  | none => none
  | some wa => curated_loop w wa include_batch store curated

/-! ### Concrete instances used to exercise the model -/

/-- A wallet address consisting only of decimal digits (its checksummed
form is itself). -/
def addrWallet : String := "0x1111111111111111111111111111111111111111"

/-- A contract address consisting only of decimal digits. -/
def addrA : String := "0x2222222222222222222222222222222222222222"

/-- An all-uppercase hex-letter address. -/
def addrUpper : String := "0xABCDEFABCDEFABCDEFABCDEFABCDEFABCDEFABCD"

/-- The lowercase variant of `addrUpper`. -/
def addrLower : String := "0xabcdefabcdefabcdefabcdefabcdefabcdefabcd"

/-- A benign world: the explorer serves the ABI `"[]"` for every address,
every single balance is 3, every batched balance is 0, the chain head is
block 1000, and no transactions exist. -/
def baseWorld : World :=
  { explorer_abi := fun _ _ => some "[]"
    json_ok := fun _ => true
    balanceOf := fun _ _ _ => 3
    balanceOfBatch := fun _ _ owners _ => some (owners.map (fun _ => 0))
    latest_block := fun _ => 1000
    txs := fun _ _ => none
    decode_input := fun _ _ => some ("transfer", [("dst", "0x0")])
    find_event_abi := fun _ _ => some "evabi"
    get_logs_result := fun _ _ _ _ _ => []
    get_event_data := fun _ _ => some "evt" }

/-- Metadata of a plain (non-batch) curated contract. -/
def mdPlain : Metadata :=
  { symbol := some "X", name := some "Foo", fetch_batch := none, total_supply := none }

/-- Metadata of a `fetch_batch` curated contract with `total_supply = 5`. -/
def mdBatch : Metadata :=
  { symbol := some "B", name := some "Bar", fetch_batch := some true, total_supply := some 5 }

/-- Metadata of a `fetch_batch` curated contract with `total_supply = 2`. -/
def mdBatch2 : Metadata :=
  { symbol := some "B", name := some "Bar", fetch_batch := some true, total_supply := some 2 }

/-- A world whose batched balance query reports the five per-id balances
`[0, 2, 0, 1, 0]`: the wallet owns ids 1 and 3, with balances 2 and 1. -/
def wC1 : World :=
  { baseWorld with balanceOfBatch := fun _ _ _ _ => some [0, 2, 0, 1, 0] }

/-- A world whose batched balance query always fails. -/
def wC6 : World :=
  { baseWorld with balanceOfBatch := fun _ _ _ _ => none }

/-- A world holding one transaction (on every chain) targeting `addrA`. -/
def wC10 : World :=
  { baseWorld with txs := fun _ _ => some { to_addr := some addrA, input := "0xfeed" } }

/-- The store after `addrA`'s ABI has been cached. -/
def storeA : Store := [(abi_path addrA, "[]")]

/-- The contract handle for `addrA` bound on the default chain. -/
def ctA : Contract := { address := addrA, abi := "[]", chain := "eth", provider := "http" }

/-- The trace of a first-time `get_contract` resolution of `addrA`. -/
def evFetchA : List Ev :=
  [Ev.diag ("fetching contract " ++ addrA ++ " for the first time"),
   Ev.explorerFetch "eth" addrA, Ev.contractBind "eth" addrA]

/-- The holding produced for `addrA` with metadata `mdPlain` and balance 3. -/
def holdPlain : Holding :=
  { md := mdPlain, balance := 3, symbol := some "X", name := some "Foo", address := addrA }

/-- The holding produced for `addrA` with metadata `mdBatch` and balance 1. -/
def holdBatch1 : Holding :=
  { md := mdBatch, balance := 1, symbol := some "B", name := some "Bar", address := addrA }

/-- The decoded call returned by `baseWorld.decode_input`. -/
def decC10 : String × List (String × String) := ("transfer", [("dst", "0x0")])

/-- The trace of decoding a transaction on chain `"polygon"` with a warm
ABI cache. -/
def trC10 : List Ev :=
  [Ev.rpcGetTransaction "polygon" "0xtx",
   Ev.diag ("decoding transaction. hash: " ++ "0xtx" ++ " | contract: " ++ addrA),
   Ev.contractBind "eth" addrA]

/-- The trace of a concrete `get_events` run with start block `-5`. -/
def trC4 : List Ev :=
  evFetchA ++ [Ev.rpcLatestBlock "eth",
               Ev.rpcGetLogs "eth" 995 none addrA [("address", FVal.str addrA)]]

/-- The trace of a concrete single-contract balance aggregation. -/
def trC5 : List Ev := evFetchA ++ [Ev.rpcBalanceOf "eth" addrA addrWallet]

/-! ### Lemmas about checksumming -/

lemma keccak256_length (msg : List Nat) : (keccak256 msg).length = 32 := by
  simp [keccak256]

lemma nibbles_length (bs : List Nat) : (nibbles bs).length = 2 * bs.length := by
  induction bs with
  | nil => rfl
  | cons b bs ih => simp [nibbles] at ih ⊢; omega

lemma hex_toLower (c : Char) (h : isLowerHexDigit c = true) :
    Char.toLower c = c ∧ Char.toLower c.toUpper = c := by
  have hc : c ∈ lowerHexChars := by
    simpa [isLowerHexDigit] using h
  fin_cases hc <;> exact ⟨rfl, rfl⟩

lemma map_toLower_checksum_zip :
    ∀ (l : List Char) (ms : List Nat), (∀ c ∈ l, isLowerHexDigit c = true) →
      l.length ≤ ms.length →
      ((l.zip ms).map (fun p => if 8 ≤ p.2 then p.1.toUpper else p.1)).map Char.toLower = l
  | [], _, _, _ => by simp
  | _ :: _, [], _, hlen => by simp at hlen
  | c :: l, m :: ms, h, hlen => by
      have hc := hex_toLower c (h c (by simp))
      have ih := map_toLower_checksum_zip l ms (fun x hx => h x (by simp [hx]))
        (by simpa using hlen)
      by_cases hm : 8 ≤ m <;> simp [hm, hc.1, hc.2, ih]

lemma checksumChars_toLower (d : List Char) (h40 : d.length = 40)
    (hall : ∀ c ∈ d, isLowerHexDigit c = true) :
    (checksumChars d).map Char.toLower = d := by
  unfold checksumChars
  apply map_toLower_checksum_zip _ _ hall
  rw [List.length_take, nibbles_length, keccak256_length, h40]
  simp

lemma parseAddress_facts {s : String} {d : List Char} (h : parseAddress s = some d) :
    d.length = 40 ∧ d.all isLowerHexDigit = true := by
  unfold parseAddress at h
  rcases hl : (strLower s).toList with _ | ⟨c0, _ | ⟨c1, rest⟩⟩ <;> rw [hl] at h
  · simp at h
  · simp at h
  · have h' : (if c0 = '0' ∧ c1 = 'x' ∧ rest.length = 40 ∧ rest.all isLowerHexDigit = true then
        some rest else none) = some d := h
    by_cases hc : c0 = '0' ∧ c1 = 'x' ∧ rest.length = 40 ∧ rest.all isLowerHexDigit = true
    · rw [if_pos hc] at h'
      obtain rfl : rest = d := by simpa using h'
      exact ⟨hc.2.2.1, hc.2.2.2⟩
    · rw [if_neg hc] at h'; simp at h'

lemma parseAddress_checksum (d : List Char) (h40 : d.length = 40)
    (hall : d.all isLowerHexDigit = true) :
    parseAddress (String.mk ('0' :: 'x' :: checksumChars d)) = some d := by
  have hall' : ∀ c ∈ d, isLowerHexDigit c = true := by
    intro c hc; exact List.all_eq_true.mp hall c hc
  have hmap := checksumChars_toLower d h40 hall'
  have h1 : (strLower (String.mk ('0' :: 'x' :: checksumChars d))).toList
      = '0' :: 'x' :: (checksumChars d).map Char.toLower := by
    simp [strLower]
  unfold parseAddress
  rw [h1, hmap]
  show (if ('0' : Char) = '0' ∧ ('x' : Char) = 'x' ∧ d.length = 40 ∧ d.all isLowerHexDigit = true
      then some d else none) = some d
  rw [if_pos ⟨rfl, rfl, h40, hall⟩]

lemma to_checksum_address_idem {s t : String} (h : to_checksum_address s = some t) :
    to_checksum_address t = some t := by
  unfold to_checksum_address at h ⊢
  cases hp : parseAddress s with
  | none => rw [hp] at h; simp at h
  | some d =>
      rw [hp] at h
      have hfacts := parseAddress_facts hp
      obtain rfl : String.mk ('0' :: 'x' :: checksumChars d) = t := by simpa using h
      rw [parseAddress_checksum d hfacts.1 hfacts.2]
      rfl

lemma parseAddress_lower_eq {a1 a2 : String} (h : strLower a1 = strLower a2) :
    parseAddress a1 = parseAddress a2 := by
  unfold parseAddress
  rw [h]

lemma to_checksum_lower_eq {a1 a2 : String} (h : strLower a1 = strLower a2) :
    to_checksum_address a1 = to_checksum_address a2 := by
  unfold to_checksum_address
  rw [parseAddress_lower_eq h]

lemma store_contract_abi_entry_isSome (store : Store) (A abi : String) :
    ((store_contract_abi store A abi).lookup (abi_path A)).isSome = true := by
  unfold store_contract_abi
  by_cases h : (store.lookup (abi_path A)).isSome
  · rw [if_pos h]; exact h
  · rw [if_neg h]; simp [List.lookup]

/-- C3: once `put(A, abi1)` (`store_contract_abi`) has succeeded, a
subsequent `put(A, abi2)` with `abi2 ≠ abi1` leaves what `get(A)`
(`fetch_contract_abi`) returns unchanged: the entry is write-once. -/
theorem claim_C3_abi_store_write_once (store : Store) (A abi1 abi2 : String)
    (_hne : abi2 ≠ abi1) :
    fetch_contract_abi (store_contract_abi (store_contract_abi store A abi1) A abi2) A =
      fetch_contract_abi (store_contract_abi store A abi1) A := by
  unfold fetch_contract_abi
  have h := store_contract_abi_entry_isSome store A abi1
  conv_lhs => rw [store_contract_abi, if_pos h]

/-- Witness for C3 at a concrete store and ABI pair. -/
theorem claim_C3_witness :
    ("abi-two" : String) ≠ "abi-one" ∧
      fetch_contract_abi (store_contract_abi (store_contract_abi [] "0xA" "abi-one") "0xA" "abi-two") "0xA" =
        fetch_contract_abi (store_contract_abi [] "0xA" "abi-one") "0xA" :=
  ⟨by decide, claim_C3_abi_store_write_once [] "0xA" "abi-one" "abi-two" (by decide)⟩

/-- C8: checksumming is idempotent (checksumming an already-checksummed
address returns it unchanged) and the result depends only on the
lowercased input, not on the letter-casing. -/
theorem claim_C8_checksum_idempotent_case_independent :
    (∀ (a chain : String),
        (checksum_address a chain).bind (fun b => checksum_address b chain) =
          checksum_address a chain)
    ∧ (∀ (a1 a2 chain : String), strLower a1 = strLower a2 →
        checksum_address a1 chain = checksum_address a2 chain) := by
  constructor
  · intro a chain
    unfold checksum_address
    by_cases hc : chain_ok chain
    · simp only [if_pos hc]
      cases h : to_checksum_address a with
      | none => rfl
      | some b => simpa using to_checksum_address_idem h
    · simp [if_neg hc]
  · intro a1 a2 chain h
    unfold checksum_address
    rw [to_checksum_lower_eq h]

/-- Witness for C8's case-independence at two concrete casings of one
address (the idempotence conjunct is hypothesis-free). -/
theorem claim_C8_witness :
    strLower addrUpper = strLower addrLower ∧
      checksum_address addrUpper "eth" = checksum_address addrLower "eth" :=
  ⟨rfl, claim_C8_checksum_idempotent_case_independent.2 addrUpper addrLower "eth" rfl⟩

/-- C7: two textually different but case-insensitive-equal addresses are
normalized to the same checksummed form, so `get_contract` behaves
identically on them — same cache entry, same cache file path. -/
theorem claim_C7_get_contract_normalizes (a1 a2 : String) (h : strLower a1 = strLower a2)
    (chain : String) :
    checksum_address a1 chain = checksum_address a2 chain
    ∧ (∀ (w : World) (store : Store) (provider : String),
        get_contract w store a1 chain provider = get_contract w store a2 chain provider)
    ∧ Option.map abi_path (checksum_address a1 chain) =
        Option.map abi_path (checksum_address a2 chain) := by
  have hck : checksum_address a1 chain = checksum_address a2 chain := by
    unfold checksum_address
    rw [to_checksum_lower_eq h]
  refine ⟨hck, ?_, by rw [hck]⟩
  intro w store provider
  unfold get_contract
  rw [hck]

/-- Witness for C7 at an all-uppercase and all-lowercase spelling of one
address. -/
theorem claim_C7_witness :
    strLower addrUpper = strLower addrLower ∧
      get_contract baseWorld [] addrUpper "eth" "http" =
        get_contract baseWorld [] addrLower "eth" "http" :=
  ⟨rfl, (claim_C7_get_contract_normalizes addrUpper addrLower rfl "eth").2.1 baseWorld [] "http"⟩

lemma build_argument_filters_zero (ca : String) (tp : Option (List (Option String))) :
    build_argument_filters ca (some 0) tp = build_argument_filters ca none tp := by
  simp [build_argument_filters]

/-- C9: the `tokenId` argument filter is added only for a truthy token id —
a non-zero id is inserted into the filter dictionary right after the
address, while `token_id = 0` (falsy, like `None`) adds nothing, so
`get_events` with `token_id = 0` behaves identically — same `eth_getLogs`
query, same trace, same result — to `get_events` with no token id. -/
theorem claim_C9_token_id_zero_ignored :
    (∀ (w : World) (store : Store) (ca en : String) (sb : Int) (eb : Option Int)
       (ch : String) (tp : Option (List (Option String))),
        get_events w store ca en (some 0) sb eb ch tp =
          get_events w store ca en none sb eb ch tp)
    ∧ (∀ (ca : String) (tp : Option (List (Option String))) (t : Int), t ≠ 0 →
        build_argument_filters ca (some t) tp =
          ("address", FVal.str ca) :: ("tokenId", FVal.int t) ::
            (build_argument_filters ca none tp).tail) := by
  constructor
  · intro w store ca en sb eb ch tp
    simp only [get_events, build_argument_filters_zero]
  · intro ca tp t ht
    unfold build_argument_filters
    cases tp with
    | none => simp [ht]
    | some ts =>
        by_cases hts : ts = []
        · simp [ht, hts]
        · simp [ht, hts]

/-- Witness for C9: the truthy id 7 is inserted into the filter dictionary
(contrast with 0, which the first conjunct proves is dropped). -/
theorem claim_C9_witness :
    build_argument_filters addrA (some 7) none =
      ("address", FVal.str addrA) :: ("tokenId", FVal.int 7) ::
        (build_argument_filters addrA none none).tail :=
  claim_C9_token_id_zero_ignored.2 addrA none 7 (by decide)

lemma get_contract_fetch_shape {w : World} {store : Store} {addr chain provider : String}
    {ct : Contract} {st : Store} {tr : List Ev}
    (h : get_contract_fetch w store addr chain provider = some (ct, st, tr)) :
    ct.address = addr ∧ ct.chain = chain ∧
    tr = [Ev.diag ("fetching contract " ++ addr ++ " for the first time"),
          Ev.explorerFetch chain addr, Ev.contractBind chain addr] := by
  unfold get_contract_fetch at h
  split at h
  · exact absurd h (by simp)
  · split at h
    · simp only [Option.some.injEq, Prod.mk.injEq] at h
      obtain ⟨h1, _, h3⟩ := h
      subst h1
      exact ⟨rfl, rfl, h3.symm⟩
    · exact absurd h (by simp)

lemma get_contract_shape {w : World} {store : Store} {a chain provider : String}
    {ct : Contract} {st : Store} {tr : List Ev}
    (h : get_contract w store a chain provider = some (ct, st, tr)) :
    checksum_address a chain = some ct.address ∧ ct.chain = chain ∧
    (tr = [Ev.contractBind chain ct.address] ∨
     tr = [Ev.diag ("fetching contract " ++ ct.address ++ " for the first time"),
           Ev.explorerFetch chain ct.address, Ev.contractBind chain ct.address]) := by
  unfold get_contract at h
  split at h
  · exact absurd h (by simp)
  next addr hck =>
    split at h
    next abi hcache =>
      split at h
      · split at h
        · simp only [Option.some.injEq, Prod.mk.injEq] at h
          obtain ⟨h1, _, h3⟩ := h
          subst h1
          exact ⟨hck, rfl, Or.inl h3.symm⟩
        · exact absurd h (by simp)
      · have s := get_contract_fetch_shape h
        refine ⟨?_, s.2.1, Or.inr ?_⟩
        · rw [s.1]; exact hck
        · rw [s.1]; exact s.2.2
    · have s := get_contract_fetch_shape h
      refine ⟨?_, s.2.1, Or.inr ?_⟩
      · rw [s.1]; exact hck
      · rw [s.1]; exact s.2.2



/-- C10: `decode_contract_transaction` fetches the transaction on the
requested chain but resolves the target contract always via the default
`"eth"` chain, whatever chain was supplied. -/
theorem claim_C10_decoder_uses_default_chain (w : World) (store : Store)
    (txa chain : String) (r : String × List (String × String)) (st : Store) (tr : List Ev)
    (h : decode_contract_transaction w store txa chain = some (r, st, tr)) :
    Ev.rpcGetTransaction chain txa ∈ tr
    ∧ (∀ c a, Ev.explorerFetch c a ∈ tr → c = "eth")
    ∧ (∀ c a, Ev.contractBind c a ∈ tr → c = "eth") := by
  unfold decode_contract_transaction at h
  split at h
  · exact absurd h (by simp)
  next tx htx =>
    split at h
    · exact absurd h (by simp)
    next target hta =>
      split at h
      · exact absurd h (by simp)
      next ct store2 ev1 hgc =>
        split at h
        · exact absurd h (by simp)
        next r' hdec =>
          simp only [Option.some.injEq, Prod.mk.injEq] at h
          obtain ⟨-, -, h3⟩ := h
          subst h3
          obtain ⟨hck, hchain, hshape⟩ := get_contract_shape hgc
          rcases hshape with hev | hev <;> subst hev <;>
            refine ⟨by simp, ?_, ?_⟩ <;> intro c a hc <;> simp at hc
          · exact hc.1
          · exact hc.1
          · exact hc.1

/-- Witness for C10: a concrete decode on chain `"polygon"` whose
transaction fetch is recorded on `"polygon"` while the contract was bound
on `"eth"`. -/
theorem claim_C10_witness : Ev.rpcGetTransaction "polygon" "0xtx" ∈ trC10 :=
  (claim_C10_decoder_uses_default_chain wC10 storeA "0xtx" "polygon" decC10 storeA trC10 rfl).1

/-- C4: in `get_events` the log filter's effective start block is
`head + start` when the supplied start is negative, and the start itself
when non-negative. -/
theorem claim_C4_negative_start_block (w : World) (store : Store)
    (ca en : String) (tid : Option Int) (sb : Int) (eb : Option Int) (ch : String)
    (tp : Option (List (Option String))) (res : List String) (st : Store) (tr : List Ev)
    (h : get_events w store ca en tid sb eb ch tp = some (res, st, tr)) :
    ∀ c fb tb fa fl, Ev.rpcGetLogs c fb tb fa fl ∈ tr →
      (sb < 0 → fb = w.latest_block ch + sb) ∧ (0 ≤ sb → fb = sb) := by
  unfold get_events at h
  split at h
  · exact absurd h (by simp)
  next ca' hck =>
    split at h
    · exact absurd h (by simp)
    next ct store2 ev1 hgc =>
      split at h
      · exact absurd h (by simp)
      next eabi habi =>
        split at h
        · exact absurd h (by simp)
        next events hmap =>
          simp only [Option.some.injEq, Prod.mk.injEq] at h
          obtain ⟨-, -, h3⟩ := h
          subst h3
          intro c fb tb fa fl hc
          obtain ⟨-, -, hshape⟩ := get_contract_shape hgc
          unfold resolve_start_block at hc
          by_cases hsb : sb < 0 <;>
            rcases hshape with hev | hev <;> rw [hev] at hc <;> simp [hsb] at hc
          · exact ⟨fun _ => hc.2.1, fun hge => by omega⟩
          · exact ⟨fun _ => hc.2.1, fun hge => by omega⟩
          · exact ⟨fun hlt => by omega, fun _ => hc.2.1⟩
          · exact ⟨fun hlt => by omega, fun _ => hc.2.1⟩


/-- Witness for C4 at start block `-5` and head block 1000. -/
theorem claim_C4_witness :
    ((-5 : Int) < 0 → (995 : Int) = baseWorld.latest_block "eth" + (-5)) ∧
      ((0 : Int) ≤ (-5 : Int) → (995 : Int) = (-5 : Int)) :=
  claim_C4_negative_start_block baseWorld [] addrA "Transfer" none (-5) none "eth" none
    [] storeA trC4 (by rfl) "eth" 995 none addrA [("address", FVal.str addrA)] (by decide)

lemma process_curated_pos {w : World} {store : Store} {wallet : String} {ib : Bool}
    {ca : String} {md : Metadata} {hOpt : Option Holding} {st : Store} {tr : List Ev}
    {h : Holding} (hp : process_curated w store wallet ib ca md = some (hOpt, st, tr))
    (hh : hOpt = some h) : h.balance > 0 := by
  subst hh
  unfold process_curated at hp
  split at hp
  · exact absurd hp (by simp)
  next ca' hck =>
    split at hp
    · exact absurd hp (by simp)
    next ct store2 ev1 hgc =>
      split at hp
      · split at hp
        · exact absurd hp (by simp)
        · by_cases hb : (batch_balance w ct wallet ca' md).1 > 0
          · simp only [if_pos hb, Option.some.injEq, Prod.mk.injEq] at hp
            obtain ⟨h1, -, -⟩ := hp
            rw [← h1]
            exact hb
          · simp [if_neg hb] at hp
      · by_cases hb : w.balanceOf ct.chain ct.address wallet > 0
        · simp only [if_pos hb, Option.some.injEq, Prod.mk.injEq] at hp
          obtain ⟨h1, -, -⟩ := hp
          rw [← h1]
          exact hb
        · simp [if_neg hb] at hp

lemma curated_loop_pos {w : World} {wallet : String} {ib : Bool} :
    ∀ {store : Store} {curated : List (String × Metadata)} {hs : List Holding}
      {st : Store} {tr : List Ev},
      curated_loop w wallet ib store curated = some (hs, st, tr) →
      ∀ h ∈ hs, h.balance > 0 := by
  intro store curated
  induction curated generalizing store with
  | nil =>
      intro hs st tr hl h hmem
      simp only [curated_loop, Option.some.injEq, Prod.mk.injEq] at hl
      obtain ⟨h1, -, -⟩ := hl
      rw [← h1] at hmem
      simp at hmem
  | cons p rest ih =>
      intro hs st tr hl h hmem
      rw [curated_loop] at hl
      split at hl
      · exact absurd hl (by simp)
      next hOpt store2 ev hp =>
        split at hl
        · exact absurd hl (by simp)
        next hs2 st2 tr2 hl2 =>
          simp only [Option.some.injEq, Prod.mk.injEq] at hl
          obtain ⟨h1, -, -⟩ := hl
          rw [← h1] at hmem
          rcases List.mem_append.mp hmem with hm | hm
          · cases hOpt with
            | none => simp at hm
            | some h0 =>
                simp only [Option.toList_some, List.mem_singleton] at hm
                subst hm
                exact process_curated_pos hp rfl
          · exact ih hl2 h hm

/-- C5: every holding returned by the Holdings Aggregator — through the
curated loop or through `get_nft_holdings` — has a strictly positive
balance; a zero (or negative) computed balance never yields a holding. -/
theorem claim_C5_only_positive_balances :
    (∀ (w : World) (store : Store) (curated : List (String × Metadata))
       (wa : String) (ib : Bool) (hs : List Holding) (st : Store) (tr : List Ev),
        get_curated_nfts_holdings w store curated wa ib = some (hs, st, tr) →
        ∀ h ∈ hs, h.balance > 0)
    ∧ (∀ (w : World) (store : Store) (wa ca : String) (md : Option Metadata)
         (hOpt : Option Holding) (st : Store) (tr : List Ev) (h : Holding),
        get_nft_holdings w store wa ca md = some (hOpt, st, tr) →
        hOpt = some h → h.balance > 0) := by
  constructor
  · intro w store curated wa ib hs st tr hrun
    unfold get_curated_nfts_holdings at hrun
    split at hrun
    · exact absurd hrun (by simp)
    next wa' hck => exact curated_loop_pos hrun
  · intro w store wa ca md hOpt st tr h hrun hh
    subst hh
    unfold get_nft_holdings at hrun
    split at hrun
    · exact absurd hrun (by simp)
    next wa' hckw =>
      split at hrun
      · exact absurd hrun (by simp)
      next ca' hckc =>
        split at hrun
        · exact absurd hrun (by simp)
        next ct store2 ev1 hgc =>
          split at hrun
          · exact absurd hrun (by simp)
          next md' =>
            split at hrun
            · simp at hrun
            next hb =>
              simp only [Option.some.injEq, Prod.mk.injEq] at hrun
              obtain ⟨h1, -, -⟩ := hrun
              rw [← h1]
              simpa using hb


/-- Witness for C5: a concrete aggregation returning one holding, whose
balance is positive. -/
theorem claim_C5_witness : holdPlain.balance > 0 :=
  claim_C5_only_positive_balances.1 baseWorld [] [(addrA, mdPlain)] addrWallet false
    [holdPlain] storeA trC5 (by rfl) holdPlain (by decide)

/-- C6: when the batched balance lookup of an enabled `fetch_batch` contract
fails, that contract contributes no holding, the diagnostic is recorded, and
the aggregation continues over the remaining contracts instead of
aborting. -/
theorem claim_C6_batch_failure_degrades (w : World) (wa : String) (store : Store)
    (ca ca' : String) (md : Metadata) (rest : List (String × Metadata)) (n : Nat)
    (ct : Contract) (store2 : Store) (ev1 : List Ev)
    (hfb : md.fetch_batch = some true) (hts : md.total_supply = some n)
    (hck : checksum_address ca "eth" = some ca')
    (hgc : get_contract w store ca' "eth" "http" = some (ct, store2, ev1))
    (hfail : w.balanceOfBatch ct.chain ct.address (List.replicate n wa) (List.range n) = none) :
    curated_loop w wa true store ((ca, md) :: rest) =
      Option.map (fun r => (r.1, r.2.1,
        (ev1 ++ [Ev.rpcBalanceOfBatch ct.chain ct.address (List.replicate n wa) (List.range n),
                 Ev.diag (batchDiag ca')]) ++ r.2.2))
        (curated_loop w wa true store2 rest) := by
  have hp : process_curated w store wa true ca md =
      some (none, store2,
        ev1 ++ [Ev.rpcBalanceOfBatch ct.chain ct.address (List.replicate n wa) (List.range n),
                Ev.diag (batchDiag ca')]) := by
    unfold process_curated
    simp only [hck, hgc]
    simp [hfb, batch_balance, hts, hfail]
  rw [curated_loop, hp]
  cases hr : curated_loop w wa true store2 rest with
  | none => simp [hr]
  | some r => simp [hr]

/-- Witness for C6: a failing batched lookup on a curated list with one
contract degrades to no holding plus a diagnostic. -/
theorem claim_C6_witness :
    curated_loop wC6 addrWallet true [] [(addrA, mdBatch2)] =
      Option.map (fun r => (r.1, r.2.1,
        (evFetchA ++ [Ev.rpcBalanceOfBatch "eth" addrA (List.replicate 2 addrWallet) (List.range 2),
                      Ev.diag (batchDiag addrA)]) ++ r.2.2))
        (curated_loop wC6 addrWallet true storeA []) :=
  claim_C6_batch_failure_degrades wC6 addrWallet [] addrA addrA mdBatch2 [] 2
    ctA storeA evFetchA rfl rfl (by rfl) (by rfl) rfl

/-- Counterexample to C1 as stated: over `total_supply = 5` with per-id
balances `[0, 2, 0, 1, 0]` (the wallet owns ids 1 and 3), two positions are
non-zero but the resulting balance is 1, because the code counts positions
whose balance is exactly 1 (`.count(1)`), not the non-zero ones. -/
theorem claim_C1_counterexample :
    (get_curated_nfts_holdings wC1 [] [(addrA, mdBatch)] addrWallet true).map
        (fun r => r.1.map Holding.balance) = some [1]
    ∧ ([0, 2, 0, 1, 0] : List Int).countP (fun b => b ≠ 0) = 2
    ∧ (1 : Int) ≠ 2 :=
  ⟨by rfl, by decide, by decide⟩

/-- C1 (amended): for an enabled `fetch_batch` contract whose batched query
succeeds, the resulting balance is the number of positions whose reported
balance is exactly 1 (`.count(1)`), not the number of non-zero positions. -/
theorem claim_C1_amended_batch_counts_ones (w : World) (store : Store)
    (wallet ca ca' : String) (md : Metadata) (n : Nat) (bals : List Int)
    (ct : Contract) (store2 : Store) (ev1 : List Ev)
    (hfb : md.fetch_batch = some true) (hts : md.total_supply = some n)
    (hck : checksum_address ca "eth" = some ca')
    (hgc : get_contract w store ca' "eth" "http" = some (ct, store2, ev1))
    (hbb : w.balanceOfBatch ct.chain ct.address (List.replicate n wallet) (List.range n) =
      some bals) :
    process_curated w store wallet true ca md =
      some ((if Int.ofNat (bals.count 1) > 0 then
               some { md := md, balance := Int.ofNat (bals.count 1), symbol := md.symbol,
                      name := md.name, address := ca' }
             else none), store2,
            ev1 ++ [Ev.rpcBalanceOfBatch ct.chain ct.address
                      (List.replicate n wallet) (List.range n)]) := by
  unfold process_curated
  simp only [hck, hgc]
  simp [hfb, batch_balance, hts, hbb]

/-- Witness for the amended C1: balances `[0, 2, 0, 1, 0]` yield a holding
of balance 1. -/
theorem claim_C1_witness :
    process_curated wC1 [] addrWallet true addrA mdBatch =
      some ((if Int.ofNat (([0, 2, 0, 1, 0] : List Int).count 1) > 0 then
               some { md := mdBatch, balance := Int.ofNat (([0, 2, 0, 1, 0] : List Int).count 1),
                      symbol := mdBatch.symbol, name := mdBatch.name, address := addrA }
             else none), storeA,
            evFetchA ++ [Ev.rpcBalanceOfBatch "eth" addrA
                          (List.replicate 5 addrWallet) (List.range 5)]) :=
  claim_C1_amended_batch_counts_ones wC1 [] addrWallet addrA addrA mdBatch 5
    [0, 2, 0, 1, 0] ctA storeA evFetchA rfl rfl (by rfl) (by rfl) rfl

lemma checksum_address_idem {a b chain : String} (h : checksum_address a chain = some b) :
    checksum_address b chain = some b := by
  unfold checksum_address at h ⊢
  by_cases hc : chain_ok chain
  · rw [if_pos hc] at h ⊢
    exact to_checksum_address_idem h
  · rw [if_neg hc] at h
    simp at h

lemma process_curated_false_events {w : World} {store : Store} {wa ca : String}
    {md : Metadata} {hOpt : Option Holding} {st : Store} {ev : List Ev}
    (hp : process_curated w store wa false ca md = some (hOpt, st, ev)) :
    (∀ c ct2 os ids, Ev.rpcBalanceOfBatch c ct2 os ids ∉ ev)
    ∧ (∀ c cta wlt, Ev.rpcBalanceOf c cta wlt ∈ ev →
        md.fetch_batch ≠ some true ∧ checksum_address ca "eth" = some cta) := by
  unfold process_curated at hp
  split at hp
  · exact absurd hp (by simp)
  next ca' hck =>
    split at hp
    · exact absurd hp (by simp)
    next ct store2 ev1 hgc =>
      obtain ⟨hck', -, hshape⟩ := get_contract_shape hgc
      have haddr : ct.address = ca' := by
        have hidem := checksum_address_idem hck
        exact Option.some.inj (hck'.symm.trans hidem)
      split at hp
      · next hfb =>
          rw [if_pos rfl] at hp
          simp only [Option.some.injEq, Prod.mk.injEq] at hp
          obtain ⟨-, -, h3⟩ := hp
          subst h3
          constructor
          · intro c ct2 os ids hm
            rcases hshape with hev | hev <;> subst hev <;> simp at hm
          · intro c cta wlt hm
            rcases hshape with hev | hev <;> subst hev <;> simp at hm
      · next hfb =>
          simp only [Option.some.injEq, Prod.mk.injEq] at hp
          obtain ⟨-, -, h3⟩ := hp
          subst h3
          constructor
          · intro c ct2 os ids hm
            rcases hshape with hev | hev <;> subst hev <;> simp at hm
          · intro c cta wlt hm
            rcases hshape with hev | hev <;> subst hev <;> simp at hm <;>
              exact ⟨hfb, by rw [hck, hm.2.1, haddr]⟩

lemma curated_loop_no_batch (w : World) (wa : String) :
    ∀ (curated : List (String × Metadata)) (store : Store) (hs : List Holding)
      (st : Store) (tr : List Ev),
      curated_loop w wa false store curated = some (hs, st, tr) →
      (∀ c ct2 os ids, Ev.rpcBalanceOfBatch c ct2 os ids ∉ tr)
      ∧ (∀ c cta wlt, Ev.rpcBalanceOf c cta wlt ∈ tr →
          ∃ a m, (a, m) ∈ curated ∧ m.fetch_batch ≠ some true ∧
            checksum_address a "eth" = some cta) := by
  intro curated
  induction curated with
  | nil =>
      intro store hs st tr hl
      simp only [curated_loop, Option.some.injEq, Prod.mk.injEq] at hl
      obtain ⟨-, -, h3⟩ := hl
      subst h3
      constructor
      · intro c ct2 os ids hm
        simp at hm
      · intro c cta wlt hm
        simp at hm
  | cons p rest ih =>
      obtain ⟨ca, md⟩ := p
      intro store hs st tr hl
      rw [curated_loop] at hl
      split at hl
      · exact absurd hl (by simp)
      next hOpt store2 ev hp =>
        split at hl
        · exact absurd hl (by simp)
        next hs2 st2 tr2 hl2 =>
          simp only [Option.some.injEq, Prod.mk.injEq] at hl
          obtain ⟨-, -, h3⟩ := hl
          subst h3
          have hev := process_curated_false_events hp
          have hih := ih store2 hs2 st2 tr2 hl2
          constructor
          · intro c ct2 os ids hm
            rcases List.mem_append.mp hm with hm | hm
            · exact hev.1 c ct2 os ids hm
            · exact hih.1 c ct2 os ids hm
          · intro c cta wlt hm
            rcases List.mem_append.mp hm with hm | hm
            · obtain ⟨hfb, hcksum⟩ := hev.2 c cta wlt hm
              exact ⟨ca, md, by simp, hfb, hcksum⟩
            · obtain ⟨a, m, hmem, h1, h2⟩ := hih.2 c cta wlt hm
              exact ⟨a, m, List.mem_cons_of_mem _ hmem, h1, h2⟩

/-- C2 (amended): with `include_batch = false` no batched balance query is
ever made and every single balance query in the trace belongs to a curated
contract that is not tagged `fetch_batch = true` — the batch contracts are
skipped before any balance query.  (The contract handle is still resolved
first, which can trigger an explorer ABI fetch on a cache miss, so "no
network call of any kind" does not hold; see the counterexample.) -/
theorem claim_C2_amended_no_balance_queries (w : World) (store : Store)
    (curated : List (String × Metadata)) (wa : String) (hs : List Holding)
    (st : Store) (tr : List Ev)
    (hrun : get_curated_nfts_holdings w store curated wa false = some (hs, st, tr)) :
    (∀ c ct2 os ids, Ev.rpcBalanceOfBatch c ct2 os ids ∉ tr)
    ∧ (∀ c cta wlt, Ev.rpcBalanceOf c cta wlt ∈ tr →
        ∃ a m, (a, m) ∈ curated ∧ m.fetch_batch ≠ some true ∧
          checksum_address a "eth" = some cta) := by
  unfold get_curated_nfts_holdings at hrun
  split at hrun
  · exact absurd hrun (by simp)
  next wa' hck => exact curated_loop_no_batch w wa' curated store hs st tr hrun

/-- Counterexample to C2 as stated: with `include_batch = false` and a cold
cache, processing a `fetch_batch` contract still performs a network call —
the explorer ABI fetch issued while resolving the contract handle before
the skip. -/
theorem claim_C2_counterexample :
    (get_curated_nfts_holdings baseWorld [] [(addrA, mdBatch)] addrWallet false).map
        (fun r => r.2.2) = some evFetchA
    ∧ Ev.explorerFetch "eth" addrA ∈ evFetchA
    ∧ (Ev.explorerFetch "eth" addrA).isNetworkCall = true :=
  ⟨by rfl, by decide, by rfl⟩

/-- Witness for the amended C2: the concrete skipped-batch run makes no
batched balance query. -/
theorem claim_C2_witness : Ev.rpcBalanceOfBatch "eth" addrA [] [] ∉ evFetchA :=
  (claim_C2_amended_no_balance_queries baseWorld [] [(addrA, mdBatch)] addrWallet
    [] storeA evFetchA (by rfl)).1 "eth" addrA [] []
